import Mathlib

/-!
Shallow embedding of `server/analysis/analyze_duke_1362.py`.

Conventions of the embedding:
* a Python player dict becomes the `Player` structure (bids are the
  non-negative integers the data model prescribes, so `Nat`);
* Python `float` arithmetic on exact integer inputs is modelled with `ℚ`
  (the script only adds, subtracts, multiplies and divides such values);
  the single square root (`statistics.stdev`) is modelled with `Real.sqrt`;
* a Python `dict` built by insertion becomes an association list in
  insertion order, looked up with `List.lookup`;
* a Python expression that can raise (`/` with zero denominator, an
  out-of-range index `[i]`) is modelled in `Option`: `none` is the raised
  exception.
-/

/-- A drafted player as used by the aggregators: the fields the script reads
from a player dict after extraction (`fullName`, `positions`, `winningBid`,
`winningTeam`, `mlbTeam`).  `winningTeam`/`mlbTeam` are `Option` because the
script reads them with `.get` defaults. -/
structure Player where
  fullName : String
  positions : List String
  winningBid : Nat
  winningTeam : Option String
  mlbTeam : Option String
deriving DecidableEq

/-- A raw entry of `auction_data['data']['players']` before extraction:
`status` read with `.get`, and `winningBid` possibly absent. -/
structure RawPlayer where
  fullName : String
  positions : List String
  status : Option String
  winningBid : Option Nat
  winningTeam : Option String
  mlbTeam : Option String
deriving DecidableEq

/-- `extract_players`: keeps players whose status equals drafted and that
carry a winningBid, then narrows to the ones whose winningTeam is Duke.
Returns `(all_players, duke_players)`. -/
def extract_players (raw : List RawPlayer) : List Player × List Player :=
  let all_players := raw.filterMap (fun r =>
    match r.winningBid with
    | none => none
    | some b =>
      if r.status = some ("drafted") then
        some ({ fullName := r.fullName, positions := r.positions,
                winningBid := b, winningTeam := r.winningTeam,
                mlbTeam := r.mlbTeam } : Player)
      else none)
  let duke_players := all_players.filter (fun p => p.winningTeam = some ("Duke"))
  (all_players, duke_players)

/-- The accumulator of `analyze_teams`: the defaultdict value
`{'players': [], 'total': 0}`. -/
structure TeamAcc where
  players : List Player
  total : Nat
deriving DecidableEq

/-- One defaultdict update of `analyze_teams`: append `p` to the bucket of
`key` (creating the bucket at the end, Python dict insertion order) and add
its bid to the bucket's running total. -/
def addPlayer (acc : List (String × TeamAcc)) (key : String) (p : Player) :
    List (String × TeamAcc) :=
  match acc with
  | [] => [(key, { players := [p], total := p.winningBid })]
  | (k, d) :: rest =>
    if k = key then
      (k, { players := d.players ++ [p], total := d.total + p.winningBid }) :: rest
    else
      (k, d) :: addPlayer rest key p

/-- `analyze_teams`: groups players by `p.get('winningTeam', 'Unknown')`,
accumulating the bucket's player list and total spend. -/
def analyze_teams (all_players : List Player) : List (String × TeamAcc) :=
  all_players.foldl (fun acc p => addPlayer acc (p.winningTeam.getD ("Unknown")) p) []

/-- Arithmetic mean of a list of bids (`statistics.mean`; the script only
applies it to non-empty lists). -/
def meanQ (l : List Nat) : ℚ :=
  (l.sum : ℚ) / (l.length : ℚ)

/-- `statistics.median`: middle of the sorted list, or the average of the two
middles for an even count (the script only applies it to non-empty lists). -/
def medianQ (l : List Nat) : ℚ :=
  let s := l.mergeSort (fun a b => decide (a ≤ b))
  let n := l.length
  if n % 2 = 1 then (s.getD (n / 2) 0 : ℚ)
  else ((s.getD (n / 2 - 1) 0 : ℚ) + (s.getD (n / 2) 0 : ℚ)) / 2

/-- `max(...)` over a non-empty list of bids (0 on `[]`, unreachable here). -/
def listMax (l : List Nat) : Nat :=
  l.foldr max 0

/-- `min(...)` over a non-empty list of bids (0 on `[]`, unreachable here). -/
def listMin (l : List Nat) : Nat :=
  match l with
  | [] => 0
  | a :: rest => rest.foldl min a

/-- The sample variance used by `statistics.stdev`: sum of squared deviations
from the mean divided by `n - 1`. -/
def sampleVarQ (l : List Nat) : ℚ :=
  (l.map (fun x => ((x : ℚ) - meanQ l) ^ 2)).sum / ((l.length : ℚ) - 1)

/-- `statistics.stdev`: square root of the sample variance. -/
noncomputable def stdev (l : List Nat) : ℝ :=
  Real.sqrt (sampleVarQ l)

/-- One per-position row of `analyze_positions`. -/
structure PositionStat where
  count : Nat
  totalSpent : Nat
  avgBid : ℚ
  medianBid : ℚ
  maxBid : Nat
  minBid : Nat
  stdDev : ℝ

/-- Builds a `PositionStat` from the accumulated bid list of one position
(the dict comprehension body of `analyze_positions`; `count` equals the
length of the accumulated bid list since both grow together). -/
noncomputable def mkPositionStat (bids : List Nat) : PositionStat :=
  { count := bids.length
    totalSpent := bids.sum
    avgBid := meanQ bids
    medianBid := medianQ bids
    maxBid := listMax bids
    minBid := listMin bids
    stdDev := if 1 < bids.length then stdev bids else 0 }

/-- One defaultdict update of `analyze_positions`: append bid `b` to the bid
list of position `pos` (creating the bucket at the end on first insertion). -/
def addBid (acc : List (String × List Nat)) (pos : String) (b : Nat) :
    List (String × List Nat) :=
  match acc with
  | [] => [(pos, [b])]
  | (k, bids) :: rest =>
    if k = pos then (k, bids ++ [b]) :: rest
    else (k, bids) :: addBid rest pos b

/-- The `position_stats` accumulation loop of `analyze_positions`: for each
player, for each of its eligible positions, append the player's bid. -/
def positionBids (players : List Player) : List (String × List Nat) :=
  players.foldl
    (fun acc p => p.positions.foldl (fun a pos => addBid a pos p.winningBid) acc) []

/-- `analyze_positions`: per-position count, sum, mean, median, max, min and
guarded sample standard deviation over the fanned-out bid lists. -/
noncomputable def analyze_positions (players : List Player) :
    List (String × PositionStat) :=
  (positionBids players).map (fun pb => (pb.1, mkPositionStat pb.2))

/-- The fixed tier table of `analyze_price_tiers`:
`(min_p, max_p, label)` rows. -/
def tierTable : List (Nat × Nat × String) :=
  [(1, 5, "Filler ($1-$5)"),
   (6, 10, "Value ($6-$10)"),
   (11, 15, "Mid-tier ($11-$15)"),
   (16, 20, "Quality ($16-$20)"),
   (21, 30, "Star ($21-$30)"),
   (31, 999, "Elite ($31+)")]

/-- The membership test `min_p <= p['winningBid'] <= max_p`. -/
def inRange (min_p max_p b : Nat) : Bool :=
  decide (min_p ≤ b) && decide (b ≤ max_p)

/-- One emitted tier row of `analyze_price_tiers`. -/
structure TierStat where
  minPrice : Nat
  maxPrice : Option Nat
  count : Nat
  totalSpent : Nat
  percentOfTotal : ℚ
  avgBid : ℚ
deriving DecidableEq

/-- `analyze_price_tiers`: applies the fixed tier table to a player set,
emitting a row only for tiers with at least one member; percent of total is
guarded to 0 when the set's total spend is 0. -/
def analyze_price_tiers (players : List Player) : List (String × TierStat) :=
  let total_spent := (players.map Player.winningBid).sum
  (tierTable.filter
      (fun t => players.any (fun p => inRange t.1 t.2.1 p.winningBid))).map
    (fun t =>
      let sel := players.filter (fun p => inRange t.1 t.2.1 p.winningBid)
      (t.2.2,
       { minPrice := t.1
         maxPrice := if t.2.1 < 999 then some t.2.1 else none
         count := sel.length
         totalSpent := (sel.map Player.winningBid).sum
         percentOfTotal :=
           if 0 < total_spent then
             ((sel.map Player.winningBid).sum : ℚ) / (total_spent : ℚ) * 100
           else 0
         avgBid :=
           if sel.isEmpty then 0 else meanQ (sel.map Player.winningBid) }))

/-- One per-position row of `duke_position_breakdown`: count, total, mean and
the per-player `(name, bid)` detail. -/
structure DukePosStat where
  count : Nat
  totalSpent : Nat
  avgBid : ℚ
  players : List (String × Nat)
deriving DecidableEq

/-- One defaultdict update of `duke_position_breakdown`: append player `p` to
the player list of position `pos`. -/
def addDukePlayer (acc : List (String × List Player)) (pos : String) (p : Player) :
    List (String × List Player) :=
  match acc with
  | [] => [(pos, [p])]
  | (k, ps) :: rest =>
    if k = pos then (k, ps ++ [p]) :: rest
    else (k, ps) :: addDukePlayer rest pos p

/-- The `duke_positions` accumulation loop of `duke_position_breakdown`. -/
def dukePositionLists (duke_players : List Player) : List (String × List Player) :=
  duke_players.foldl
    (fun acc p => p.positions.foldl (fun a pos => addDukePlayer a pos p) acc) []

/-- `duke_position_breakdown`: per-position count, total, mean and player
detail over the target team's players (fan-out by position). -/
def duke_position_breakdown (duke_players : List Player) :
    List (String × DukePosStat) :=
  (dukePositionLists duke_players).map (fun pl =>
    (pl.1,
     { count := pl.2.length
       totalSpent := (pl.2.map Player.winningBid).sum
       avgBid := meanQ (pl.2.map Player.winningBid)
       players := pl.2.map (fun p => (p.fullName, p.winningBid)) }))

/-- One per-position row of `compare_duke_to_league`. -/
structure PosComparison where
  dukeAvg : ℚ
  leagueAvg : ℚ
  difference : ℚ
  percentDiff : ℚ
  interpretation : String
deriving DecidableEq

/-- `compare_duke_to_league`: for each position of the target-team breakdown
that also appears in the league position stats, the mean difference, the
guarded percentage difference, and the overpaid/value label. -/
noncomputable def compare_duke_to_league (duke_players all_players : List Player) :
    List (String × PosComparison) :=
  let league_pos_stats := analyze_positions all_players
  (duke_position_breakdown duke_players).filterMap (fun pd =>
    match league_pos_stats.lookup pd.1 with
    | none => none
    | some ls =>
      let league_avg := ls.avgBid
      let duke_avg := pd.2.avgBid
      some (pd.1,
        { dukeAvg := duke_avg
          leagueAvg := league_avg
          difference := duke_avg - league_avg
          percentDiff :=
            if 0 < league_avg then (duke_avg - league_avg) / league_avg * 100
            else 0
          interpretation :=
            if league_avg < duke_avg then ("overpaid") else ("value") }))

/-- One row of the historical inflation arrays: only the field the script
reads (`avgInflationRate`). -/
structure InflEntry where
  avgInflationRate : ℚ
deriving DecidableEq

/-- The slice of the historical reference that `generate_insights` reads:
`historical['aggregate']['aggregateTierInflation']` and
`historical['aggregate']['aggregatePriceRangeInflation']`. -/
structure Historical where
  aggregateTierInflation : List InflEntry
  aggregatePriceRangeInflation : List InflEntry
deriving DecidableEq

/-- One insight record.  The free-text `finding` string is modelled by the
ordered list of computed figures it interpolates; `category` and
`implication` are kept verbatim. -/
structure Insight where
  category : String
  implication : String
  figures : List ℚ
deriving DecidableEq

/-- Python `/`: raises `ZeroDivisionError` on a zero denominator, modelled as
`none`. -/
def pydiv (a b : ℚ) : Option ℚ :=
  if b = 0 then none else some (a / b)

/-- `generate_insights`: the five narrative insights.  Divisions by dynamic
counts and the fixed historical index accesses happen in source order inside
`Option`; `none` is the uncaught exception (ZeroDivisionError/IndexError). -/
def generate_insights (duke_players all_players : List Player)
    (teams : List (String × TeamAcc)) (historical : Historical) :
    Option (List Insight) :=
  let duke_total : ℚ := ((duke_players.map Player.winningBid).sum : ℚ)
  let total_spent : ℚ := ((all_players.map Player.winningBid).sum : ℚ)
  let num_teams := teams.length
  let expected_budget : ℚ := 260
  let remaining_budget := expected_budget - duke_total
  let budget_pct := duke_total / expected_budget * 100
  let insight1 : Insight :=
    { category := "Budget Status"
      implication :=
        if budget_pct < 80 then ("Moderate")
        else if budget_pct < 90 then ("Low") else ("Very Low")
      figures := [duke_total, expected_budget, budget_pct, remaining_budget] }
  do
  let avg_roster ← pydiv (all_players.length : ℚ) (num_teams : ℚ)
  let insight2 : Insight :=
    { category := "Roster Size"
      implication :=
        if (duke_players.length : ℚ) < avg_roster then ("Below average")
        else ("Above average")
      figures := [(duke_players.length : ℚ), avg_roster] }
  let duke_avg ← pydiv duke_total (duke_players.length : ℚ)
  let league_avg ← pydiv total_spent (all_players.length : ℚ)
  let insight3 : Insight :=
    { category := "Average Player Value"
      implication :=
        if league_avg < duke_avg then ("Targeting premium players")
        else ("Value-focused strategy")
      figures := [duke_avg, league_avg] }
  let t0 ← historical.aggregateTierInflation.get? 0
  let hist_tier1_infl := t0.avgInflationRate
  let p3 ← historical.aggregatePriceRangeInflation.get? 3
  let _hist_elite_infl := p3.avgInflationRate
  let insight4 : Insight :=
    { category := "Historical Context - Elite Players"
      implication := "Elite players are historically the best value in auctions"
      figures := [hist_tier1_infl] }
  let p0 ← historical.aggregatePriceRangeInflation.get? 0
  let insight5 : Insight :=
    { category := "Historical Context - Budget Players"
      implication := "Budget players are consistently overvalued - avoid overpaying for replacement level"
      figures := [p0.avgInflationRate] }
  pure [insight1, insight2, insight3, insight4, insight5]

/-- One entry of the assembled report's `dukeRoster.players` list. -/
structure RosterEntry where
  name : String
  positions : List String
  winningBid : Nat
  mlbTeam : String
deriving DecidableEq

/-- The dict built for one player inside the `dukeRoster.players`
comprehension of `create_analysis`. -/
def rosterEntryOf (p : Player) : RosterEntry :=
  { name := p.fullName, positions := p.positions,
    winningBid := p.winningBid, mlbTeam := p.mlbTeam.getD ("FA") }

/-- The `dukeRoster.players` list of `create_analysis`: the target team's
players mapped to roster entries and sorted by `winningBid` descending
(Python `sorted(..., key=..., reverse=True)`, a stable merge sort). -/
def dukeRosterPlayers (duke_players : List Player) : List RosterEntry :=
  (duke_players.map rosterEntryOf).mergeSort
    (fun a b => decide (b.winningBid ≤ a.winningBid))

/-!  Concrete fixtures used to witness the theorems below on evaluated
inputs.  Player names, teams and bids are arbitrary small data. -/

/-- Fixture: a Duke catcher bought for 10. -/
def pA : Player :=
  { fullName := "A", positions := [("C")], winningBid := 10,
    winningTeam := some ("Duke"), mlbTeam := none }

/-- Fixture: a two-position player on another team bought for 4. -/
def pB : Player :=
  { fullName := "B", positions := [("C"), ("1B")], winningBid := 4,
    winningTeam := some ("X"), mlbTeam := none }

/-- Fixture: a player with a zero winning bid (allowed by the data model:
bids are non-negative integers). -/
def pZero : Player :=
  { fullName := "Z", positions := [("C")], winningBid := 0,
    winningTeam := some ("T"), mlbTeam := none }

/-- Fixture: a player whose winning bid 1000 exceeds the 999 cap of the
topmost tier row. -/
def pBig : Player :=
  { fullName := "G", positions := [("C")], winningBid := 1000,
    winningTeam := some ("T"), mlbTeam := none }

/-- Fixture: a player whose positions list repeats the same code. -/
def pDup : Player :=
  { fullName := "D", positions := [("C"), ("C")], winningBid := 7,
    winningTeam := some ("Duke"), mlbTeam := none }

/-- Fixture: an elite-priced player (bid 31). -/
def pE : Player :=
  { fullName := "E", positions := [("SS")], winningBid := 31,
    winningTeam := some ("Duke"), mlbTeam := some ("NYY") }

/-- Fixture: a historical reference with one tier row and four price-range
rows, enough for every fixed index the script reads. -/
def hist0 : Historical :=
  { aggregateTierInflation := [{ avgInflationRate := 5 }]
    aggregatePriceRangeInflation :=
      [{ avgInflationRate := 1 }, { avgInflationRate := 2 },
       { avgInflationRate := 3 }, { avgInflationRate := 4 }] }

/-- Fixture: a historical reference with only two price-range rows, so the
fixed index 3 is out of range. -/
def histShort : Historical :=
  { aggregateTierInflation := [{ avgInflationRate := 5 }]
    aggregatePriceRangeInflation :=
      [{ avgInflationRate := 1 }, { avgInflationRate := 2 }] }

/-- Fixture: raw auction rows in which the only drafted player is not on
Duke, so extraction yields an empty Duke roster. -/
def rawNoDuke : List RawPlayer :=
  [{ fullName := "B", positions := [("C")], status := some ("drafted"),
     winningBid := some 4, winningTeam := some ("X"), mlbTeam := none }]

/-- Fixture: the comparison row the comparator produces for position C on
the fixture pair `[pA]` vs `[pA, pB]`: Duke mean `meanQ [10] = 10`, league
mean `meanQ [10, 4] = 7`, so the row is labelled `overpaid`.  The fields are
kept in unevaluated form so the record is definitionally the one built by
`compare_duke_to_league`. -/
def cmpC : PosComparison :=
  { dukeAvg := meanQ [10]
    leagueAvg := meanQ [10, 4]
    difference := meanQ [10] - meanQ [10, 4]
    percentDiff :=
      if 0 < meanQ [10, 4] then (meanQ [10] - meanQ [10, 4]) / meanQ [10, 4] * 100
      else 0
    interpretation :=
      if meanQ [10, 4] < meanQ [10] then ("overpaid") else ("value") }

/-- The bucket invariant of the team aggregator: the running total is the
sum of the bucket's bids, and every stored player keys to the bucket. -/
def TeamBucketOk (td : String × TeamAcc) : Prop :=
  td.2.total = (td.2.players.map Player.winningBid).sum ∧
    ∀ q ∈ td.2.players, q.winningTeam.getD ("Unknown") = td.1

/-- The bid list the `analyze_positions` loop accumulates for one position:
one copy of the player's bid per occurrence of the position code in its
positions list, in traversal order. -/
def bidsFor (players : List Player) (pos : String) : List Nat :=
  players.flatMap (fun p =>
    (p.positions.filter (fun q => q == pos)).map (fun _ => p.winningBid))

/-- Association-list lookup with default `[]`: the defaultdict view of an
accumulator of `analyze_positions`. -/
def lookupD (l : List (String × List Nat)) (pos : String) : List Nat :=
  (l.lookup pos).getD []

/-!  Theorems. -/

/-- C10: the assembled report's `dukeRoster.players` list is sorted in
descending order of `winningBid`: every adjacent pair is non-increasing. -/
theorem dukeRosterPlayers_sorted_desc (duke_players : List Player) :
    List.Chain' (fun a b => b.winningBid ≤ a.winningBid)
      (dukeRosterPlayers duke_players) := by
  have h : List.Pairwise
      (fun a b : RosterEntry => (decide (b.winningBid ≤ a.winningBid)) = true)
      (dukeRosterPlayers duke_players) :=
    List.sorted_mergeSort
      (fun a b c hab hbc => by
        simp only [decide_eq_true_eq] at hab hbc ⊢
        omega)
      (fun a b => by
        simp only [Bool.or_eq_true, decide_eq_true_eq]
        omega)
      (duke_players.map rosterEntryOf)
  exact (h.imp (fun hab => by simpa using hab)).chain'

/-- Helper: looking up a label that no row of `l` carries, in the
association list obtained by keying each row by its label, yields `none`. -/
theorem lookup_label_map_none {β : Type} (l : List (Nat × Nat × String))
    (f : Nat × Nat × String → β) (lbl : String) (h : ∀ t ∈ l, t.2.2 ≠ lbl) :
    (l.map (fun t => (t.2.2, f t))).lookup lbl = none := by
  induction l with
  | nil => rfl
  | cons t ts ih =>
    have hne : (lbl == t.2.2) = false := by
      simp only [beq_eq_false_iff_ne, ne_eq]
      exact fun hc => h t (by simp) hc.symm
    simp only [List.map_cons, List.lookup_cons, hne]
    exact ih (fun u hu => h u (by simp [hu]))

/-- C6: a price tier with zero members is entirely absent from the output of
`analyze_price_tiers`: its label does not appear as a key at all. -/
theorem analyze_price_tiers_omits_empty (players : List Player)
    (min_p max_p : Nat) (lbl : String)
    (ht : (min_p, max_p, lbl) ∈ tierTable)
    (h : ∀ p ∈ players, inRange min_p max_p p.winningBid = false) :
    (analyze_price_tiers players).lookup lbl = none := by
  have hinj : ∀ t1 ∈ tierTable, ∀ t2 ∈ tierTable, t1.2.2 = t2.2.2 → t1 = t2 := by
    decide
  unfold analyze_price_tiers
  apply lookup_label_map_none
  intro t htf hlbl
  have htm := List.mem_of_mem_filter htf
  have hq := List.of_mem_filter htf
  have hteq : t = (min_p, max_p, lbl) := hinj t htm _ ht (by simpa using hlbl)
  subst hteq
  simp only [List.any_eq_true] at hq
  obtain ⟨p, hp, hpr⟩ := hq
  rw [h p hp] at hpr
  exact Bool.false_ne_true hpr

/-- C6 witness: with the single fixture player bid 10, the Elite tier key is
absent from the tier output. -/
theorem analyze_price_tiers_omits_empty_witness :
    (analyze_price_tiers [pA]).lookup ("Elite ($31+)") = none :=
  analyze_price_tiers_omits_empty [pA] 31 999 ("Elite ($31+)")
    (by decide) (by decide)

/-- C4: every row of the comparator output is labelled `overpaid` exactly
when the target mean strictly exceeds the league mean, and `value`
otherwise; equal means are labelled `value`. -/
theorem compare_interpretation (duke_players all_players : List Player)
    (pos : String) (c : PosComparison)
    (h : (pos, c) ∈ compare_duke_to_league duke_players all_players) :
    (c.interpretation = "overpaid" ↔ c.leagueAvg < c.dukeAvg) ∧
      (c.dukeAvg = c.leagueAvg → c.interpretation = "value") := by
  unfold compare_duke_to_league at h
  rw [List.mem_filterMap] at h
  obtain ⟨pd, hpd, hf⟩ := h
  cases hl : (analyze_positions all_players).lookup pd.1 with
  | none => rw [hl] at hf; exact absurd hf (by simp)
  | some ls =>
    rw [hl] at hf
    simp only [Option.some.injEq, Prod.mk.injEq] at hf
    obtain ⟨hpos, hc⟩ := hf
    have hi : c.interpretation =
        (if ls.avgBid < pd.2.avgBid then ("overpaid") else ("value")) := by
      rw [← hc]
    have hd : c.dukeAvg = pd.2.avgBid := by rw [← hc]
    have hla : c.leagueAvg = ls.avgBid := by rw [← hc]
    rw [hi, hd, hla]
    by_cases hlt : ls.avgBid < pd.2.avgBid
    · rw [if_pos hlt]
      exact ⟨⟨fun _ => hlt, fun _ => rfl⟩,
        fun he => absurd (he ▸ hlt) (lt_irrefl _)⟩
    · rw [if_neg hlt]
      exact ⟨⟨fun hv => absurd hv (by decide), fun hcon => absurd hcon hlt⟩,
        fun _ => rfl⟩

/-- C4 witness: on the two-player fixture the catcher comparison row is
labelled `overpaid`, matching the strict mean comparison. -/
theorem compare_interpretation_witness :
    (cmpC.interpretation = "overpaid" ↔ cmpC.leagueAvg < cmpC.dukeAvg) ∧
      (cmpC.dukeAvg = cmpC.leagueAvg → cmpC.interpretation = "value") :=
  compare_interpretation [pA] [pA, pB] ("C") cmpC (List.Mem.head _)

/-- Helper: a successful lookup in an association list whose values are the
image of `g` comes from a successful lookup of a preimage value. -/
theorem lookup_map_pair {β γ : Type} (l : List (String × β)) (g : β → γ)
    (pos : String) (c : γ)
    (h : (l.map (fun pb => (pb.1, g pb.2))).lookup pos = some c) :
    ∃ b, l.lookup pos = some b ∧ c = g b := by
  induction l with
  | nil => simp [List.lookup] at h
  | cons hd tl ih =>
    obtain ⟨k, v⟩ := hd
    simp only [List.map_cons, List.lookup_cons] at h
    cases hbeq : pos == k with
    | true =>
      simp only [hbeq, Option.some.injEq] at h
      exact ⟨v, by simp [List.lookup_cons, hbeq], h.symm⟩
    | false =>
      simp only [hbeq] at h
      obtain ⟨b, hb, hcb⟩ := ih h
      exact ⟨b, by simp [List.lookup_cons, hbeq, hb], hcb⟩

/-- C7: a position bucket with fewer than two bid observations reports a
standard deviation of exactly 0 (the guarded branch of `analyze_positions`). -/
theorem analyze_positions_stdDev_small (players : List Player) (pos : String)
    (st : PositionStat)
    (hl : (analyze_positions players).lookup pos = some st) (hc : st.count < 2) :
    st.stdDev = 0 := by
  unfold analyze_positions at hl
  obtain ⟨bids, hb, hst⟩ := lookup_map_pair (positionBids players)
    mkPositionStat pos st hl
  subst hst
  have hlen : bids.length < 2 := by simpa [mkPositionStat] using hc
  simp only [mkPositionStat]
  rw [if_neg (by omega)]

/-- C7 witness: a single-observation catcher bucket reports stdDev 0. -/
theorem analyze_positions_stdDev_small_witness :
    (mkPositionStat [10]).stdDev = 0 :=
  analyze_positions_stdDev_small [pA] ("C") (mkPositionStat [10]) rfl
    (by decide)

/-- C1 counterexample: over a snapshot whose only drafted player is not on
Duke, extraction yields an empty Duke roster, and insight generation on it
raises a division-by-zero error (modelled as `none`) at the unguarded
`duke_total / len(duke_players)` instead of emitting zero-count aggregates. -/
theorem generate_insights_empty_duke_counterexample :
    (extract_players rawNoDuke).2 = [] ∧
      generate_insights (extract_players rawNoDuke).2 (extract_players rawNoDuke).1
        (analyze_teams (extract_players rawNoDuke).1) hist0 = none := by
  constructor
  · rfl
  · rfl

/-- C1 amended: not every division is guarded — the mean-cost divisions of
`generate_insights` are bare, so a player set with an empty target-team
roster, or an empty team map, makes insight generation raise a
division-by-zero error (no insights are produced) rather than propagate
zero-count aggregates. -/
theorem generate_insights_empty_divzero (duke_players all_players : List Player)
    (teams : List (String × TeamAcc)) (historical : Historical)
    (h : duke_players = [] ∨ teams = []) :
    generate_insights duke_players all_players teams historical = none := by
  rcases h with h | h
  · subst h
    by_cases ht : ((teams.length : ℚ)) = 0
    · simp [generate_insights, pydiv, ht]
    · simp [generate_insights, pydiv, ht]
  · subst h
    simp [generate_insights, pydiv]

/-- C1 witness: insight generation on an empty Duke roster with a one-player
league fails. -/
theorem generate_insights_empty_divzero_witness :
    generate_insights [] [pB] (analyze_teams [pB]) hist0 = none :=
  generate_insights_empty_divzero [] [pB] (analyze_teams [pB]) hist0 (Or.inl rfl)

/-- C8: `generate_insights` reads the historical reference at the fixed
indices 0 (tier inflation) and 0 and 3 (price-range inflation) without any
guard: with fewer than 4 price-range rows or an empty tier array it fails
(no insight list is produced), and with all required indices present (and
non-empty player/team inputs, so the divisions pass) it succeeds. -/
theorem generate_insights_historical_indices (duke_players all_players : List Player)
    (teams : List (String × TeamAcc)) (historical : Historical) :
    ((historical.aggregatePriceRangeInflation.length < 4 ∨
        historical.aggregateTierInflation = []) →
      generate_insights duke_players all_players teams historical = none) ∧
    (duke_players ≠ [] → all_players ≠ [] → teams ≠ [] →
      historical.aggregateTierInflation ≠ [] →
      4 ≤ historical.aggregatePriceRangeInflation.length →
      (generate_insights duke_players all_players teams historical).isSome = true) := by
  constructor
  · intro h
    by_cases h1 : ((teams.length : ℚ)) = 0
    · simp [generate_insights, pydiv, h1]
    by_cases h2 : ((duke_players.length : ℚ)) = 0
    · simp [generate_insights, pydiv, h1, h2]
    by_cases h3 : ((all_players.length : ℚ)) = 0
    · simp [generate_insights, pydiv, h1, h2, h3]
    rcases h with h | h
    · by_cases h4 : historical.aggregateTierInflation = []
      · simp [generate_insights, pydiv, h1, h2, h3, h4]
      · obtain ⟨t0, ttl, h5⟩ := List.exists_cons_of_ne_nil h4
        have hg3 : historical.aggregatePriceRangeInflation[3]? = none :=
          List.getElem?_eq_none (by omega)
        simp [generate_insights, pydiv, h1, h2, h3, h5, hg3]
    · simp [generate_insights, pydiv, h1, h2, h3, h]
  · intro hd ha ht htier hlen
    have h1 : ((teams.length : ℚ)) ≠ 0 := by simpa using ht
    have h2 : ((duke_players.length : ℚ)) ≠ 0 := by simpa using hd
    have h3 : ((all_players.length : ℚ)) ≠ 0 := by simpa using ha
    obtain ⟨t0, ttl, h5⟩ := List.exists_cons_of_ne_nil htier
    obtain ⟨v3, hg3⟩ : ∃ v, historical.aggregatePriceRangeInflation[3]? = some v :=
      ⟨_, List.getElem?_eq_getElem (by omega)⟩
    obtain ⟨v0, hg0⟩ : ∃ v, historical.aggregatePriceRangeInflation[0]? = some v :=
      ⟨_, List.getElem?_eq_getElem (by omega)⟩
    simp [generate_insights, pydiv, h1, h2, h3, h5, hg3, hg0]

/-- C8 witness: with only two price-range rows the insight generation fails;
with the four-row fixture and the same players it succeeds. -/
theorem generate_insights_historical_indices_witness :
    generate_insights [pA] [pA, pB] (analyze_teams [pA, pB]) histShort = none ∧
      (generate_insights [pA] [pA, pB] (analyze_teams [pA, pB]) hist0).isSome = true :=
  ⟨(generate_insights_historical_indices [pA] [pA, pB] (analyze_teams [pA, pB])
      histShort).1 (Or.inl (by decide)),
   (generate_insights_historical_indices [pA] [pA, pB] (analyze_teams [pA, pB])
      hist0).2 (by decide) (by decide) (by decide) (by decide) (by decide)⟩

/-- Helper: one `addPlayer` update grows the total number of stored players
by exactly one. -/
theorem addPlayer_sum_len (acc : List (String × TeamAcc)) (key : String) (p : Player) :
    ((addPlayer acc key p).map (fun td => td.2.players.length)).sum =
      (acc.map (fun td => td.2.players.length)).sum + 1 := by
  induction acc with
  | nil => simp [addPlayer]
  | cons hd tl ih =>
    obtain ⟨k, d⟩ := hd
    by_cases hk : k = key
    · simp [addPlayer, hk]
      omega
    · simp [addPlayer, hk, ih]
      omega

/-- Helper: one `addPlayer` update grows the sum of the running totals by
exactly the player's bid. -/
theorem addPlayer_sum_total (acc : List (String × TeamAcc)) (key : String) (p : Player) :
    ((addPlayer acc key p).map (fun td => td.2.total)).sum =
      (acc.map (fun td => td.2.total)).sum + p.winningBid := by
  induction acc with
  | nil => simp [addPlayer]
  | cons hd tl ih =>
    obtain ⟨k, d⟩ := hd
    by_cases hk : k = key
    · simp [addPlayer, hk]
      omega
    · simp [addPlayer, hk, ih]
      omega

/-- Helper: `addPlayer` with the player's own team key preserves the bucket
invariant. -/
theorem addPlayer_ok (acc : List (String × TeamAcc)) (p : Player)
    (h : ∀ td ∈ acc, TeamBucketOk td) :
    ∀ td ∈ addPlayer acc (p.winningTeam.getD ("Unknown")) p, TeamBucketOk td := by
  induction acc with
  | nil =>
    intro td htd
    simp only [addPlayer, List.mem_singleton] at htd
    subst htd
    refine ⟨by simp, ?_⟩
    intro q hq
    simp only [List.mem_singleton] at hq
    subst hq
    rfl
  | cons hd tl ih =>
    obtain ⟨k, d⟩ := hd
    have hhd := h (k, d) (by simp)
    have htl : ∀ td ∈ tl, TeamBucketOk td := fun td htd => h td (by simp [htd])
    intro td htd
    by_cases hk : k = p.winningTeam.getD ("Unknown")
    · simp only [addPlayer, if_pos hk, List.mem_cons] at htd
      rcases htd with htd | htd
      · subst htd
        constructor
        · simp [TeamBucketOk] at hhd
          simp [hhd.1]
        · intro q hq
          simp only [List.mem_append, List.mem_singleton] at hq
          rcases hq with hq | hq
          · exact hhd.2 q hq
          · subst hq
            exact hk.symm
      · exact htl td htd
    · simp only [addPlayer, if_neg hk, List.mem_cons] at htd
      rcases htd with htd | htd
      · subst htd
        exact hhd
      · exact ih htl td htd

/-- Helper: player-count preservation for the whole `analyze_teams` fold. -/
theorem analyze_teams_fold_len (players : List Player) :
    ∀ acc : List (String × TeamAcc),
      (((players.foldl
            (fun acc p => addPlayer acc (p.winningTeam.getD ("Unknown")) p) acc)).map
          (fun td => td.2.players.length)).sum =
        (acc.map (fun td => td.2.players.length)).sum + players.length := by
  induction players with
  | nil => intro acc; simp
  | cons p ps ih =>
    intro acc
    simp only [List.foldl_cons]
    rw [ih, addPlayer_sum_len]
    simp only [List.length_cons]
    omega

/-- Helper: bid-total preservation for the whole `analyze_teams` fold. -/
theorem analyze_teams_fold_total (players : List Player) :
    ∀ acc : List (String × TeamAcc),
      (((players.foldl
            (fun acc p => addPlayer acc (p.winningTeam.getD ("Unknown")) p) acc)).map
          (fun td => td.2.total)).sum =
        (acc.map (fun td => td.2.total)).sum + (players.map Player.winningBid).sum := by
  induction players with
  | nil => intro acc; simp
  | cons p ps ih =>
    intro acc
    simp only [List.foldl_cons]
    rw [ih, addPlayer_sum_total]
    simp only [List.map_cons, List.sum_cons]
    omega

/-- Helper: the bucket invariant holds of every bucket the fold produces. -/
theorem analyze_teams_fold_ok (players : List Player) :
    ∀ acc : List (String × TeamAcc), (∀ td ∈ acc, TeamBucketOk td) →
      ∀ td ∈ players.foldl
          (fun acc p => addPlayer acc (p.winningTeam.getD ("Unknown")) p) acc,
        TeamBucketOk td := by
  induction players with
  | nil => intro acc hacc; simpa using hacc
  | cons p ps ih =>
    intro acc hacc
    simp only [List.foldl_cons]
    exact ih _ (addPlayer_ok acc p hacc)

/-- C9: `analyze_teams` assigns each player to exactly one bucket (missing
`winningTeam` keys to `Unknown`): bucket sizes sum to the input size, bucket
totals sum to the total spend, each bucket total is the sum of its stored
players' bids, and every stored player keys to its bucket. -/
theorem analyze_teams_partition (all_players : List Player) :
    ((analyze_teams all_players).map (fun td => td.2.players.length)).sum =
        all_players.length ∧
      ((analyze_teams all_players).map (fun td => td.2.total)).sum =
        (all_players.map Player.winningBid).sum ∧
      ∀ td ∈ analyze_teams all_players,
        td.2.total = (td.2.players.map Player.winningBid).sum ∧
          ∀ q ∈ td.2.players, q.winningTeam.getD ("Unknown") = td.1 :=
  ⟨by simpa using analyze_teams_fold_len all_players [],
   by simpa using analyze_teams_fold_total all_players [],
   fun td htd => analyze_teams_fold_ok all_players [] (by simp) td htd⟩

/-- C9 witness: on the two-player fixture, the Duke bucket's total equals the
sum of the bids of the players stored in it. -/
theorem analyze_teams_partition_witness :
    (("Duke", ({ players := [pA], total := 10 } : TeamAcc)) :
        String × TeamAcc).2.total =
      ((("Duke", ({ players := [pA], total := 10 } : TeamAcc)) :
          String × TeamAcc).2.players.map Player.winningBid).sum :=
  ((analyze_teams_partition [pA, pB]).2.2
    (("Duke"), ({ players := [pA], total := 10 } : TeamAcc)) (by decide)).1

/-- Helper: the defaultdict view of one `addBid` update. -/
theorem lookupD_addBid (acc : List (String × List Nat)) (k : String) (b : Nat)
    (pos : String) :
    lookupD (addBid acc k b) pos =
      if pos = k then lookupD acc pos ++ [b] else lookupD acc pos := by
  induction acc with
  | nil =>
    by_cases h : pos = k
    · simp [addBid, lookupD, List.lookup_cons, h]
    · simp [addBid, lookupD, List.lookup_cons, h,
        show (pos == k) = false by simpa using h]
  | cons hd tl ih =>
    obtain ⟨k1, bs⟩ := hd
    by_cases h1 : k1 = k
    · subst h1
      by_cases h2 : pos = k1
      · subst h2
        simp [addBid, lookupD, List.lookup_cons]
      · simp [addBid, lookupD, List.lookup_cons,
          show (pos == k1) = false by simpa using h2, h2]
    · by_cases h2 : pos = k1
      · subst h2
        simp [addBid, lookupD, List.lookup_cons, if_neg h1,
          show pos ≠ k from fun hc => h1 (hc ▸ rfl)]
      · have ih2 := ih
        simp only [lookupD] at ih2
        simp [addBid, lookupD, List.lookup_cons, if_neg h1,
          show (pos == k1) = false by simpa using h2, ih2]

/-- Helper: the defaultdict view of one player's inner positions loop. -/
theorem lookupD_positions_fold (qs : List String) (b : Nat) (pos : String) :
    ∀ acc : List (String × List Nat),
      lookupD (qs.foldl (fun a q => addBid a q b) acc) pos =
        lookupD acc pos ++ (qs.filter (fun q => q == pos)).map (fun _ => b) := by
  induction qs with
  | nil => intro acc; simp
  | cons q qs ih =>
    intro acc
    simp only [List.foldl_cons]
    rw [ih, lookupD_addBid]
    by_cases h : pos = q
    · subst h
      simp [List.filter_cons]
    · simp [List.filter_cons, show (q == pos) = false by
        simpa using fun hc => h hc.symm, h]

/-- Helper: the defaultdict view of the whole `positionBids` fold. -/
theorem lookupD_players_fold (players : List Player) (pos : String) :
    ∀ acc : List (String × List Nat),
      lookupD
          (players.foldl
            (fun acc p =>
              p.positions.foldl (fun a q => addBid a q p.winningBid) acc) acc)
          pos =
        lookupD acc pos ++ bidsFor players pos := by
  induction players with
  | nil => intro acc; simp [bidsFor]
  | cons p ps ih =>
    intro acc
    simp only [List.foldl_cons]
    rw [ih, lookupD_positions_fold]
    simp [bidsFor]

/-- Helper: a successful lookup in `positionBids` returns exactly the
fanned-out bid list of that position. -/
theorem lookup_positionBids (players : List Player) (pos : String)
    (bids : List Nat) (h : (positionBids players).lookup pos = some bids) :
    bids = bidsFor players pos := by
  have h2 := lookupD_players_fold players pos []
  rw [show lookupD [] pos = [] from rfl, List.nil_append] at h2
  rw [show players.foldl
      (fun acc p => p.positions.foldl (fun a q => addBid a q p.winningBid) acc) [] =
      positionBids players from rfl] at h2
  rw [lookupD, h] at h2
  simpa using h2

/-- Helper: sum of a constant-valued map. -/
theorem sum_map_const_nat {α : Type} (l : List α) (b : Nat) :
    (l.map (fun _ => b)).sum = l.length * b := by
  induction l with
  | nil => simp
  | cons x xs ih => simp [ih, Nat.succ_mul]; omega

/-- Helper: when no player repeats a position code, the fanned-out bid sum
for that code is the bid sum over the players eligible there. -/
theorem bidsFor_sum (players : List Player) (pos : String)
    (hnd : ∀ p ∈ players, p.positions.count pos ≤ 1) :
    (bidsFor players pos).sum =
      ((players.filter (fun p => decide (pos ∈ p.positions))).map
          Player.winningBid).sum := by
  induction players with
  | nil => simp [bidsFor]
  | cons p ps ih =>
    have hp := hnd p (by simp)
    have hps : ∀ q ∈ ps, q.positions.count pos ≤ 1 :=
      fun q hq => hnd q (by simp [hq])
    have hhead : ((p.positions.filter (fun q => q == pos)).map
        (fun _ => p.winningBid)).sum = p.positions.count pos * p.winningBid := by
      rw [sum_map_const_nat, ← List.countP_eq_length_filter]
      rfl
    simp only [bidsFor, List.flatMap_cons, List.sum_append, List.filter_cons]
    rw [show (ps.flatMap (fun p =>
        (p.positions.filter (fun q => q == pos)).map (fun _ => p.winningBid))) =
      bidsFor ps pos from rfl]
    by_cases hmem : pos ∈ p.positions
    · have hc1 : p.positions.count pos = 1 :=
        le_antisymm hp (List.count_pos_iff.mpr hmem)
      rw [hhead, hc1, ih hps]
      simp [hmem]
    · have hc0 : p.positions.count pos = 0 := List.count_eq_zero.mpr hmem
      rw [hhead, hc0, ih hps]
      simp [hmem]

/-- C5 counterexample: a player whose positions list repeats C is counted
once per occurrence by `analyze_positions`, so `totalSpent` for C is 14
while the bid sum over players whose positions contain C is 7. -/
theorem analyze_positions_totalSpent_counterexample :
    ((analyze_positions [pDup]).lookup ("C")).map PositionStat.totalSpent =
        some 14 ∧
      (([pDup].filter (fun p => decide (("C") ∈ p.positions))).map
          Player.winningBid).sum = 7 ∧ (14 : Nat) ≠ 7 := by
  refine ⟨rfl, ?_, by decide⟩
  decide

/-- C5 amended: provided no player's positions list repeats the position
code, `totalSpent` for that code equals the sum of `winningBid` over exactly
the players whose positions list contains it (with a repeated code a player
contributes once per occurrence instead). -/
theorem analyze_positions_totalSpent (players : List Player) (pos : String)
    (st : PositionStat)
    (hl : (analyze_positions players).lookup pos = some st)
    (hnd : ∀ p ∈ players, p.positions.count pos ≤ 1) :
    st.totalSpent =
      ((players.filter (fun p => decide (pos ∈ p.positions))).map
          Player.winningBid).sum := by
  unfold analyze_positions at hl
  obtain ⟨bids, hb, hst⟩ :=
    lookup_map_pair (positionBids players) mkPositionStat pos st hl
  subst hst
  rw [show (mkPositionStat bids).totalSpent = bids.sum from rfl,
    lookup_positionBids players pos bids hb]
  exact bidsFor_sum players pos hnd

/-- C5 witness: on the two-player fixture the C bucket's totalSpent is the
bid sum over the two C-eligible players. -/
theorem analyze_positions_totalSpent_witness :
    (mkPositionStat [10, 4]).totalSpent =
      (([pA, pB].filter (fun p => decide (("C") ∈ p.positions))).map
          Player.winningBid).sum :=
  analyze_positions_totalSpent [pA, pB] ("C") (mkPositionStat [10, 4]) rfl
    (by decide)

/-- Helper: dropping filtered-out elements whose value is zero does not
change a mapped sum. -/
theorem sum_map_filter_of_zero {α M : Type} [AddCommMonoid M] (l : List α)
    (q : α → Bool) (f : α → M) (h : ∀ a ∈ l, q a = false → f a = 0) :
    ((l.filter q).map f).sum = (l.map f).sum := by
  induction l with
  | nil => rfl
  | cons a as ih =>
    have has : ∀ x ∈ as, q x = false → f x = 0 :=
      fun x hx hfx => h x (by simp [hx]) hfx
    cases hq : q a with
    | true => simp [List.filter_cons, hq, ih has]
    | false =>
      simp [List.filter_cons, hq, ih has, h a (by simp) hq]

/-- Helper: a mapped sum of pointwise sums splits. -/
theorem sum_map_add {α : Type} (l : List α) (f g : α → Nat) :
    (l.map (fun a => f a + g a)).sum = (l.map f).sum + (l.map g).sum := by
  induction l with
  | nil => rfl
  | cons a as ih =>
    simp [ih]
    omega

/-- Helper: summing `w` over the elements satisfying `r` counts them. -/
theorem sum_map_ite_const {α : Type} (l : List α) (r : α → Bool) (w : Nat) :
    (l.map (fun a => if r a = true then w else 0)).sum = l.countP r * w := by
  induction l with
  | nil => simp
  | cons a as ih =>
    cases h : r a with
    | true =>
      simp [List.countP_cons, h, ih, Nat.add_mul]
      omega
    | false => simp [List.countP_cons, h, ih]

/-- Helper: every bid between 1 and 999 lies in exactly one row of the fixed
tier table. -/
theorem tier_countP_eq_one (b : Nat) (h1 : 1 ≤ b) (h2 : b ≤ 999) :
    tierTable.countP (fun t => inRange t.1 t.2.1 b) = 1 := by
  simp only [tierTable, inRange, List.countP_cons, List.countP_nil,
    Bool.and_eq_true, decide_eq_true_eq]
  split_ifs <;> omega

/-- Helper: with all bids in 1..999, the per-tier member counts over the
full tier table sum to the player count. -/
theorem sum_tier_counts (players : List Player)
    (hb : ∀ p ∈ players, 1 ≤ p.winningBid ∧ p.winningBid ≤ 999) :
    (tierTable.map
        (fun t => players.countP (fun p => inRange t.1 t.2.1 p.winningBid))).sum =
      players.length := by
  induction players with
  | nil => simp
  | cons p ps ih =>
    have hbp := hb p (by simp)
    have hbs : ∀ q ∈ ps, 1 ≤ q.winningBid ∧ q.winningBid ≤ 999 :=
      fun q hq => hb q (by simp [hq])
    simp only [List.countP_cons]
    rw [sum_map_add, ih hbs, sum_map_ite_const,
      tier_countP_eq_one p.winningBid hbp.1 hbp.2]
    simp

/-- Helper: with all bids in 1..999, the per-tier bid sums over the full
tier table add up to the total spend. -/
theorem sum_tier_spent (players : List Player)
    (hb : ∀ p ∈ players, 1 ≤ p.winningBid ∧ p.winningBid ≤ 999) :
    (tierTable.map (fun t =>
        ((players.filter (fun p => inRange t.1 t.2.1 p.winningBid)).map
            Player.winningBid).sum)).sum =
      (players.map Player.winningBid).sum := by
  induction players with
  | nil => simp
  | cons p ps ih =>
    have hbp := hb p (by simp)
    have hbs : ∀ q ∈ ps, 1 ≤ q.winningBid ∧ q.winningBid ≤ 999 :=
      fun q hq => hb q (by simp [hq])
    have hsplit : (tierTable.map (fun t =>
        (((p :: ps).filter (fun x => inRange t.1 t.2.1 x.winningBid)).map
            Player.winningBid).sum)) =
        tierTable.map (fun t =>
          (if inRange t.1 t.2.1 p.winningBid = true then p.winningBid else 0) +
            ((ps.filter (fun x => inRange t.1 t.2.1 x.winningBid)).map
                Player.winningBid).sum) := by
      apply List.map_congr_left
      intro t ht
      cases hq : inRange t.1 t.2.1 p.winningBid <;> simp [List.filter_cons, hq]
    rw [hsplit, sum_map_add, ih hbs, sum_map_ite_const,
      tier_countP_eq_one p.winningBid hbp.1 hbp.2]
    simp

/-- C2 counterexample: a zero-bid player (bids are non-negative integers, so
0 is a possible bid) lies in no tier row, so the per-tier counts sum to 0
while the input has 1 player. -/
theorem analyze_price_tiers_counts_counterexample :
    ((analyze_price_tiers [pZero]).map (fun r => r.2.count)).sum = 0 ∧
      [pZero].length = 1 ∧ (0 : Nat) ≠ 1 :=
  ⟨rfl, rfl, by decide⟩

/-- C2 amended: for a non-empty player list whose bids all lie between 1 and
999 inclusive, the per-tier counts emitted by `analyze_price_tiers` sum to
the player count (bids of 0, or above the 999 cap of the top row, fall in no
tier). -/
theorem analyze_price_tiers_counts (players : List Player) (hne : players ≠ [])
    (hb : ∀ p ∈ players, 1 ≤ p.winningBid ∧ p.winningBid ≤ 999) :
    ((analyze_price_tiers players).map (fun r => r.2.count)).sum =
      players.length := by
  unfold analyze_price_tiers
  rw [List.map_map]
  show ((tierTable.filter
      (fun t => players.any (fun p => inRange t.1 t.2.1 p.winningBid))).map
      (fun t =>
        (players.filter (fun p => inRange t.1 t.2.1 p.winningBid)).length)).sum =
    players.length
  simp only [← List.countP_eq_length_filter]
  rw [sum_map_filter_of_zero _ _ _ (fun t ht hq =>
    List.countP_eq_zero.mpr (fun p hp hpr => (List.any_eq_false.mp hq p hp) hpr))]
  exact sum_tier_counts players hb

/-- C2 witness: on a two-player fixture with bids 10 and 31 the two emitted
tier counts sum to 2. -/
theorem analyze_price_tiers_counts_witness :
    ((analyze_price_tiers [pA, pE]).map (fun r => r.2.count)).sum =
      [pA, pE].length :=
  analyze_price_tiers_counts [pA, pE] (by decide) (by decide)

/-- C3 counterexample: a single bid of 1000 exceeds the 999 cap of the top
tier row, so no tier is emitted and the percentages sum to 0, not 100. -/
theorem analyze_price_tiers_percents_counterexample :
    ((analyze_price_tiers [pBig]).map (fun r => r.2.percentOfTotal)).sum = 0 ∧
      ((0 : ℚ)) ≠ 100 := by
  refine ⟨rfl, ?_⟩
  norm_num

/-- C3 amended: for a non-empty player list whose bids all lie between 1 and
999 inclusive, the emitted `percentOfTotal` values sum to exactly 100 (each
is the tier's spend over the set's total spend times 100, the total being
positive here; a bid of 0 or above 999 escapes every tier and breaks the
identity). -/
theorem analyze_price_tiers_percents (players : List Player) (hne : players ≠ [])
    (hb : ∀ p ∈ players, 1 ≤ p.winningBid ∧ p.winningBid ≤ 999) :
    ((analyze_price_tiers players).map (fun r => r.2.percentOfTotal)).sum = 100 := by
  obtain ⟨p0, ps0, hp0⟩ := List.exists_cons_of_ne_nil hne
  have htot : 0 < (players.map Player.winningBid).sum := by
    have h1 : 1 ≤ p0.winningBid := (hb p0 (by simp [hp0])).1
    have h2 : p0.winningBid ≤ (players.map Player.winningBid).sum :=
      List.single_le_sum (by simp) _ (by
        simp only [List.mem_map]
        exact ⟨p0, by simp [hp0], rfl⟩)
    omega
  unfold analyze_price_tiers
  rw [List.map_map]
  show ((tierTable.filter
      (fun t => players.any (fun p => inRange t.1 t.2.1 p.winningBid))).map
      (fun t =>
        if 0 < (players.map Player.winningBid).sum then
          ((((players.filter (fun p => inRange t.1 t.2.1 p.winningBid)).map
              Player.winningBid).sum : ℚ) /
            (((players.map Player.winningBid).sum : ℚ))) * 100
        else 0)).sum = 100
  simp only [if_pos htot]
  rw [sum_map_filter_of_zero _ _ _ (fun t ht hq => by
    have hsel : players.filter (fun p => inRange t.1 t.2.1 p.winningBid) = [] :=
      List.filter_eq_nil_iff.mpr
        (fun p hp hpr => (List.any_eq_false.mp hq p hp) hpr)
    rw [hsel]
    simp)]
  have hcong : (tierTable.map (fun t =>
      ((((players.filter (fun p => inRange t.1 t.2.1 p.winningBid)).map
          Player.winningBid).sum : ℚ) /
        (((players.map Player.winningBid).sum : ℚ))) * 100)) =
      tierTable.map (fun t =>
        (((players.filter (fun p => inRange t.1 t.2.1 p.winningBid)).map
            Player.winningBid).sum : ℚ) *
          (100 / (((players.map Player.winningBid).sum : ℚ)))) := by
    apply List.map_congr_left
    intro t ht
    rw [div_mul_eq_mul_div, mul_div_assoc]
  rw [hcong, List.sum_map_mul_right]
  have hcast : (tierTable.map (fun t =>
      (((players.filter (fun p => inRange t.1 t.2.1 p.winningBid)).map
          Player.winningBid).sum : ℚ))).sum =
      (((players.map Player.winningBid).sum : ℚ)) := by
    rw [show (tierTable.map (fun t =>
        (((players.filter (fun p => inRange t.1 t.2.1 p.winningBid)).map
            Player.winningBid).sum : ℚ))) =
        ((tierTable.map (fun t =>
          ((players.filter (fun p => inRange t.1 t.2.1 p.winningBid)).map
              Player.winningBid).sum)).map (fun n : Nat => (n : ℚ))) from by
      rw [List.map_map]
      rfl]
    rw [← Nat.cast_list_sum, sum_tier_spent players hb]
  rw [hcast]
  have hne0 : (((players.map Player.winningBid).sum : ℚ)) ≠ 0 :=
    Nat.cast_ne_zero.mpr (Nat.pos_iff_ne_zero.mp htot)
  rw [mul_comm]
  exact div_mul_cancel₀ 100 hne0

/-- C3 witness: on a two-player fixture with bids 10 and 31 the emitted
percentages sum to 100. -/
theorem analyze_price_tiers_percents_witness :
    ((analyze_price_tiers [pA, pE]).map (fun r => r.2.percentOfTotal)).sum = 100 :=
  analyze_price_tiers_percents [pA, pE] (by decide) (by decide)
